import Mathlib

/-!
Verification of the redemption-code / license subsystem of this repository
(`src/code_system.py`, class `CodeManager`).

Modelling conventions:

* The two persisted JSON stores are modelled in memory: `codes.json` as an
  association list `codes : List (String × CodeInfo)` (Python `dict` keeps a
  unique key set; `dictInsert` overwrites in place and appends new keys at the
  end, `dictErase` removes a key, mirroring `codes[code] = ...` and
  `del codes[code]`), and `license.json` as a `LicenseData` record.  Every read
  of `license.json` in the source goes through `dict.get` with a default
  (`[]` for `unlocked_features` and `used_preset_codes`, `None` otherwise), so a
  JSON file missing a key is observationally the default value; `LicenseData`
  therefore stores those defaults directly.  In particular `reset_license`
  (lines 277-279) writes a dict holding only `unlocked_features` and
  `activated_at`, which makes every later `.get("used_preset_codes", [])`
  return `[]` - modelled as setting the field to `[]`.
* `datetime.now()` is passed in explicitly as an integer timestamp `now`;
  `timedelta(days=d)` adds `d` in the same unit.  `datetime.fromisoformat`
  composed with `isoformat` is the identity and disappears.
* `secrets.choice(chars)` is nondeterministic input: `generate_code` receives
  the sixteen chosen alphabet indices as `picks : Fin 4 → Fin 4 → Fin 32`
  (segment, position); `generate_batch` receives one such table per iteration.
* `str.strip` / `str.upper` (line 168/203) are `pyStrip` / `pyUpper` on the
  character list; `Char.toUpper` matches Python's `upper` and
  `Char.isWhitespace` matches the stripped character class on the ASCII
  inputs this system handles.
* `verify_code` performs no writes in the source (it only loads the stores),
  so it is a pure function of the state; `redeem_code`, `generate_code`,
  `delete_code` and `reset_license` return the successor state.
-/

namespace CodeSystem

/-- Hard-coded preset redemption codes (`PRESET_CODES`, lines 27-37):
code string to package type. -/
def PRESET_CODES : List (String × String) := [
  ("BASIC-2024-ABCD-1234", "basic"),
  ("BASIC-2024-EFGH-5678", "basic"),
  ("BASIC-2024-IJKL-9012", "basic"),
  ("PRO-2024-MNOP-3456", "pro"),
  ("PRO-2024-QRST-7890", "pro"),
  ("PRO-2024-UVWX-1357", "pro")]

/-- One entry of the `PACKAGES` table (lines 41-52). -/
structure PackageInfo where
  name : String
  features : List String
  description : String
deriving DecidableEq

def basicPackage : PackageInfo :=
  { name := "基础版", features := ["prompt", "jump"],
    description := "生成提示词 + 复制跳转" }

def proPackage : PackageInfo :=
  { name := "专业版", features := ["prompt", "jump", "package"],
    description := "生成提示词 + 复制跳转 + PyInstaller打包" }

/-- The package table `PACKAGES` (lines 41-52). -/
def PACKAGES : List (String × PackageInfo) :=
  [("basic", basicPackage), ("pro", proPackage)]

/-- A stored redemption-code record: the value of one key of `codes.json`
(written at lines 148-153, mutated at lines 216-217).  `used_at` is absent
until redemption; absent is `none`. -/
structure CodeInfo where
  package_type : String
  expires_at : Option Int
  is_used : Bool
  created_at : Int
  used_at : Option Int
deriving DecidableEq

/-- The `license.json` store, with each key read back through `.get` with the
defaults shown in `_load_license` / `_load_used_preset_codes` (lines 98-114). -/
structure LicenseData where
  unlocked_features : List String
  activated_at : Option Int
  package_type : Option String
  used_preset_codes : List String
deriving DecidableEq

/-- The whole persisted state owned by `CodeManager`. -/
structure ManagerState where
  codes : List (String × CodeInfo)
  license : LicenseData
deriving DecidableEq

/-- Association-list lookup, `dict.__getitem__` / `in` on `codes`. -/
def lookupStr {α : Type} : List (String × α) → String → Option α
  | [], _ => none
  | (k, v) :: rest, key => if k = key then some v else lookupStr rest key

/-- `dict` assignment `m[key] = v`: overwrite in place, or append a new key. -/
def dictInsert {α : Type} : List (String × α) → String → α → List (String × α)
  | [], key, v => [(key, v)]
  | (k, w) :: rest, key, v =>
    if k = key then (key, v) :: rest else (k, w) :: dictInsert rest key v

/-- `del m[key]`: drop the (unique) entry holding `key`. -/
def dictErase {α : Type} : List (String × α) → String → List (String × α)
  | [], _ => []
  | (k, w) :: rest, key => if k = key then rest else (k, w) :: dictErase rest key

/-- Python `str.strip()` on the character list: drop whitespace from both
ends. -/
def pyStrip (l : List Char) : List Char :=
  List.rdropWhile Char.isWhitespace (l.dropWhile Char.isWhitespace)

/-- Python `str.upper()` on the character list. -/
def pyUpper (l : List Char) : List Char := l.map Char.toUpper

/-- `code.strip().upper()`, the input normalization at lines 168 and 203. -/
def normalize (s : String) : String := (pyUpper (pyStrip s.toList)).asString

/-- The code alphabet `chars` of `generate_code` (line 134). -/
def CODE_CHARS : List Char := "ABCDEFGHJKLMNPQRSTUVWXYZ23456789".toList

/-- One `secrets.choice(chars)` draw, indexed into the alphabet. -/
def pick (i : Fin 32) : Char := CODE_CHARS.get (Fin.cast (by decide) i)

/-- One four-character segment (lines 136-138). -/
def codeSegment (f : Fin 4 → Fin 32) : List Char :=
  [pick (f 0), pick (f 1), pick (f 2), pick (f 3)]

/-- `'-'.join(segments)` over the four segments (line 139). -/
def mkCodeList (picks : Fin 4 → Fin 4 → Fin 32) : List Char :=
  codeSegment (picks 0) ++ '-' ::
    (codeSegment (picks 1) ++ '-' ::
      (codeSegment (picks 2) ++ '-' :: codeSegment (picks 3)))

def mkCode (picks : Fin 4 → Fin 4 → Fin 32) : String := (mkCodeList picks).asString

/-- The expiry computation of `generate_code` (lines 141-144): Python's
`if expires_days:` is a truthiness test, so `0` behaves like `None`. -/
def expiresOf (expires_days : Option Int) (now : Int) : Option Int :=
  match expires_days with
  | some d => if d ≠ 0 then some (now + d) else none
  | none => none

/-- `CodeManager.generate_code` (lines 125-156). -/
def generate_code (st : ManagerState) (package_type : String)
    (expires_days : Option Int) (now : Int) (picks : Fin 4 → Fin 4 → Fin 32) :
    String × ManagerState :=
  let code := mkCode picks
  let info : CodeInfo :=
    { package_type := package_type, expires_at := expiresOf expires_days now,
      is_used := false, created_at := now, used_at := none }
  (code, { st with codes := dictInsert st.codes code info })

/-- `CodeManager.generate_batch` (lines 158-160): the comprehension
`[self.generate_code(...) for _ in range(count)]`, threading the store. -/
def generate_batch (st : ManagerState) (package_type : String) (count : Nat)
    (expires_days : Option Int) (now : Int)
    (picks : Nat → Fin 4 → Fin 4 → Fin 32) : List String × ManagerState :=
  match count with
  | 0 => ([], st)
  | n + 1 =>
    let r := generate_code st package_type expires_days now (picks 0)
    let rest := generate_batch r.2 package_type n expires_days now
      (fun i => picks (i + 1))
    (r.1 :: rest.1, rest.2)

/-- `CodeManager.verify_code` (lines 162-195).  Pure: the source only reads the
stores here.  The preset table is consulted before the mutable store; then
absence, `is_used`, and expiry are checked in that order. -/
def verify_code (st : ManagerState) (input : String) (now : Int) :
    Bool × String × Option String :=
  match lookupStr PRESET_CODES (normalize input) with
  | some pkg =>
    if normalize input ∈ st.license.used_preset_codes then
      (false, "该兑换码已在本机使用", none)
    else
      (true, "兑换码有效", some pkg)
  | none =>
    match lookupStr st.codes (normalize input) with
    | none => (false, "兑换码无效", none)
    | some info =>
      if info.is_used then (false, "该兑换码已被使用", none)
      else
        match info.expires_at with
        | some expires =>
          if now > expires then (false, "该兑换码已过期", none)
          else (true, "兑换码有效", some info.package_type)
        | none => (true, "兑换码有效", some info.package_type)

/-- `PACKAGES.get(package_type, PACKAGES["basic"])` (line 221); the key can
only be `None` on unreachable paths, where `.get` also falls back. -/
def packageGet (package_type : Option String) : PackageInfo :=
  match package_type with
  | some p => (lookupStr PACKAGES p).getD basicPackage
  | none => basicPackage

/-- `_save_used_preset_code` (lines 116-123): append if absent. -/
def saveUsedPresetCode (st : ManagerState) (code : String) : ManagerState :=
  if code ∈ st.license.used_preset_codes then st
  else { st with license := { st.license with
    used_preset_codes := st.license.used_preset_codes ++ [code] } }

/-- The record mutation of lines 216-217: set `is_used` and stamp `used_at`
on the entry holding `code`. -/
def markUsed (codes : List (String × CodeInfo)) (code : String) (now : Int) :
    List (String × CodeInfo) :=
  codes.map (fun p =>
    if p.1 = code then (p.1, { p.2 with is_used := true, used_at := some now })
    else p)

/-- `CodeManager.redeem_code` (lines 197-228). -/
def redeem_code (st : ManagerState) (input : String) (now : Int) :
    (Bool × String) × ManagerState :=
  let v := verify_code st (normalize input) now
  if v.1 then
    let st1 :=
      if (lookupStr PRESET_CODES (normalize input)).isSome then
        saveUsedPresetCode st (normalize input)
      else
        { st with codes := markUsed st.codes (normalize input) now }
    ((true, "激活成功！已解锁：" ++ (packageGet v.2.2).name ++ " (" ++
        (packageGet v.2.2).description ++ ")"),
     { st1 with license := { st1.license with
         unlocked_features := (packageGet v.2.2).features,
         activated_at := some now,
         package_type := v.2.2 } })
  else
    ((false, v.2.1), st)

/-- `CodeManager.is_feature_unlocked` (lines 230-233). -/
def is_feature_unlocked (st : ManagerState) (feature : String) : Bool :=
  st.license.unlocked_features.contains feature

/-- `CodeManager.delete_code` (lines 268-275); note: no normalization here. -/
def delete_code (st : ManagerState) (code : String) : Bool × ManagerState :=
  match lookupStr st.codes code with
  | some _ => (true, { st with codes := dictErase st.codes code })
  | none => (false, st)

/-- `CodeManager.reset_license` (lines 277-279): the license file is replaced
by a dict holding only empty `unlocked_features` and null `activated_at`, so
every key reads back as its default afterwards (see the header note). -/
def reset_license (st : ManagerState) : ManagerState :=
  { st with license :=
    { unlocked_features := [], activated_at := none,
      package_type := none, used_preset_codes := [] } }

/-- The state `_ensure_files` creates on first run (lines 78-83). -/
def initialState : ManagerState :=
  { codes := [],
    license := { unlocked_features := [], activated_at := none,
                 package_type := none, used_preset_codes := [] } }

/-- One state-mutating `CodeManager` call, with its nondeterministic inputs
(`now`, random draws) recorded. -/
inductive Op where
  | genOp (package_type : String) (expires_days : Option Int) (now : Int)
      (picks : Fin 4 → Fin 4 → Fin 32)
  | redeemOp (input : String) (now : Int)
  | resetOp
  | deleteOp (code : String)

/-- Apply one operation to the persisted state. -/
def applyOp (st : ManagerState) : Op → ManagerState
  | Op.genOp pkg d now picks => (generate_code st pkg d now picks).2
  | Op.redeemOp input now => (redeem_code st input now).2
  | Op.resetOp => reset_license st
  | Op.deleteOp code => (delete_code st code).2

/-- Run a sequence of manager operations. -/
def runOps (st : ManagerState) (ops : List Op) : ManagerState :=
  ops.foldl applyOp st

/-- Operations that neither delete any code nor (re)generate the code `c`:
the side conditions of the amended single-use invariant for generated codes. -/
def opKeeps (c : String) : Op → Bool
  | Op.genOp _ _ _ picks => !(mkCode picks == c)
  | Op.deleteOp _ => false
  | _ => true

/-- Operations that are neither `delete_code` nor `reset_license`: the side
conditions of the amended single-use invariant for preset codes. -/
def opKeepsPreset : Op → Bool
  | Op.resetOp => false
  | Op.deleteOp _ => false
  | _ => true

/-! ### Character-level facts about Python `upper`/`strip` -/

theorem charToNat_ofNat_valid (n : Nat) (h : n.isValidChar) :
    (Char.ofNat n).toNat = n := by
  rw [Char.ofNat, dif_pos h]
  rfl

theorem toUpper_toNat_of_lower {c : Char} (h97 : 97 ≤ c.toNat)
    (h122 : c.toNat ≤ 122) : (Char.toUpper c).toNat = c.toNat - 32 := by
  rw [Char.toUpper]
  simp only [ge_iff_le, h97, h122, and_self, if_pos]
  have hv : (c.toNat - 32).isValidChar := by
    left
    omega
  rw [charToNat_ofNat_valid _ hv]

theorem toUpper_eq_self_of_not_lower {c : Char}
    (h : ¬(97 ≤ c.toNat ∧ c.toNat ≤ 122)) : Char.toUpper c = c := by
  rw [Char.toUpper]
  simp only [ge_iff_le]
  rw [if_neg h]

theorem toUpper_toUpper (c : Char) : c.toUpper.toUpper = c.toUpper := by
  by_cases h : 97 ≤ c.toNat ∧ c.toNat ≤ 122
  · have h1 : (Char.toUpper c).toNat = c.toNat - 32 :=
      toUpper_toNat_of_lower h.1 h.2
    apply toUpper_eq_self_of_not_lower
    omega
  · simp [toUpper_eq_self_of_not_lower h]

theorem char_eq_iff_toNat_eq (a b : Char) : a = b ↔ a.toNat = b.toNat := by
  constructor
  · intro h; rw [h]
  · intro h
    rw [← Char.ofNat_toNat a, ← Char.ofNat_toNat b, h]

theorem isWhitespace_toUpper (c : Char) :
    c.toUpper.isWhitespace = c.isWhitespace := by
  by_cases h : 97 ≤ c.toNat ∧ c.toNat ≤ 122
  · have h1 : (Char.toUpper c).toNat = c.toNat - 32 :=
      toUpper_toNat_of_lower h.1 h.2
    have hsp : (' ' : Char).toNat = 32 := by decide
    have htab : ('\t' : Char).toNat = 9 := by decide
    have hcr : ('\r' : Char).toNat = 13 := by decide
    have hnl : ('\n' : Char).toNat = 10 := by decide
    have hl : (Char.toUpper c).isWhitespace = false := by
      simp only [Char.isWhitespace, char_eq_iff_toNat_eq, hsp, htab, hcr, hnl,
        Bool.or_eq_false_iff, decide_eq_false_iff_not]
      omega
    have hr : c.isWhitespace = false := by
      simp only [Char.isWhitespace, char_eq_iff_toNat_eq, hsp, htab, hcr, hnl,
        Bool.or_eq_false_iff, decide_eq_false_iff_not]
      omega
    rw [hl, hr]
  · rw [toUpper_eq_self_of_not_lower h]

/-! ### `normalize` is idempotent -/

theorem toList_asString (l : List Char) : (List.asString l).toList = l := rfl

theorem dropWhile_pyStrip (l : List Char) :
    (pyStrip l).dropWhile Char.isWhitespace = pyStrip l := by
  cases hps : pyStrip l with
  | nil => rfl
  | cons c rest =>
    have hpre : List.rdropWhile Char.isWhitespace
        (l.dropWhile Char.isWhitespace) <+: l.dropWhile Char.isWhitespace :=
      List.rdropWhile_prefix _ _
    rw [pyStrip] at hps
    rw [hps] at hpre
    obtain ⟨t, ht⟩ := hpre
    have hne : l.dropWhile Char.isWhitespace ≠ [] := by
      rw [← ht]; simp
    have hc := List.head_dropWhile_not Char.isWhitespace l hne
    have hhead : (l.dropWhile Char.isWhitespace).head hne = c := by
      simp [← ht]
    rw [hhead] at hc
    simp [List.dropWhile_cons, hc]

theorem pyStrip_idem (l : List Char) : pyStrip (pyStrip l) = pyStrip l := by
  have h1 : pyStrip (pyStrip l) = List.rdropWhile Char.isWhitespace
      ((pyStrip l).dropWhile Char.isWhitespace) := rfl
  rw [h1, dropWhile_pyStrip, pyStrip, List.rdropWhile_idempotent]

theorem dropWhile_ws_map_toUpper (l : List Char) :
    (l.map Char.toUpper).dropWhile Char.isWhitespace
      = (l.dropWhile Char.isWhitespace).map Char.toUpper := by
  have hp : (Char.isWhitespace ∘ Char.toUpper) = Char.isWhitespace := by
    funext c
    exact isWhitespace_toUpper c
  rw [List.dropWhile_map, hp]

theorem rdropWhile_ws_map_toUpper (l : List Char) :
    List.rdropWhile Char.isWhitespace (l.map Char.toUpper)
      = (List.rdropWhile Char.isWhitespace l).map Char.toUpper := by
  rw [List.rdropWhile, List.rdropWhile, ← List.map_reverse,
    dropWhile_ws_map_toUpper, List.map_reverse]

theorem pyStrip_pyUpper (l : List Char) :
    pyStrip (pyUpper l) = pyUpper (pyStrip l) := by
  simp only [pyStrip, pyUpper]
  rw [dropWhile_ws_map_toUpper, rdropWhile_ws_map_toUpper]

theorem pyUpper_idem (l : List Char) : pyUpper (pyUpper l) = pyUpper l := by
  simp only [pyUpper, List.map_map]
  exact List.map_congr_left (fun a _ => toUpper_toUpper a)

theorem normalize_idem (s : String) : normalize (normalize s) = normalize s := by
  simp only [normalize, toList_asString]
  rw [pyStrip_pyUpper, pyStrip_idem, pyUpper_idem]

/-! ### Association-list facts -/

theorem lookupStr_dictInsert_self {α : Type} (m : List (String × α))
    (k : String) (v : α) : lookupStr (dictInsert m k v) k = some v := by
  induction m with
  | nil => simp [dictInsert, lookupStr]
  | cons p rest ih =>
    obtain ⟨k1, v1⟩ := p
    by_cases h : k1 = k
    · subst h
      simp [dictInsert, lookupStr]
    · simp [dictInsert, lookupStr, h, ih]

theorem lookupStr_dictInsert_ne {α : Type} (m : List (String × α))
    (k k' : String) (v : α) (h : k' ≠ k) :
    lookupStr (dictInsert m k v) k' = lookupStr m k' := by
  induction m with
  | nil =>
    simp only [dictInsert, lookupStr]
    rw [if_neg (Ne.symm h)]
  | cons p rest ih =>
    obtain ⟨k1, v1⟩ := p
    by_cases h1 : k1 = k
    · subst h1
      simp only [dictInsert, if_pos rfl, lookupStr]
      rw [if_neg (Ne.symm h), if_neg (Ne.symm h)]
    · simp only [dictInsert, if_neg h1, lookupStr]
      by_cases h2 : k1 = k'
      · simp [h2]
      · simp [h2, ih]

theorem markUsed_cons (k1 : String) (v1 : CodeInfo)
    (rest : List (String × CodeInfo)) (k : String) (t : Int) :
    markUsed ((k1, v1) :: rest) k t =
      (if k1 = k then (k1, { v1 with is_used := true, used_at := some t })
       else (k1, v1)) :: markUsed rest k t := by
  simp only [markUsed, List.map_cons]

theorem lookupStr_markUsed (m : List (String × CodeInfo)) (k c : String)
    (t : Int) : lookupStr (markUsed m k t) c =
      if c = k then
        (lookupStr m c).map
          (fun i => { i with is_used := true, used_at := some t })
      else lookupStr m c := by
  induction m with
  | nil =>
    simp [markUsed, lookupStr]
  | cons p rest ih =>
    obtain ⟨k1, v1⟩ := p
    rw [markUsed_cons]
    by_cases h1 : k1 = k
    · rw [if_pos h1]
      by_cases h2 : k1 = c
      · subst h2
        rw [if_pos h1]
        simp [lookupStr, h1]
      · simp only [lookupStr, if_neg h2]
        rw [ih]
    · rw [if_neg h1]
      by_cases h2 : k1 = c
      · subst h2
        rw [if_neg h1]
        simp [lookupStr, fun hh : k1 = k => h1 hh]
      · simp only [lookupStr, if_neg h2]
        rw [ih]

/-! ### Facts about freshly generated code strings -/

theorem pick_not_whitespace : ∀ i : Fin 32, (pick i).isWhitespace = false := by
  decide

theorem pick_toUpper : ∀ i : Fin 32, (pick i).toUpper = pick i := by decide

theorem pick_mem_CODE_CHARS : ∀ i : Fin 32, pick i ∈ CODE_CHARS := by decide

theorem mkCodeList_chars (picks : Fin 4 → Fin 4 → Fin 32) :
    ∀ c ∈ mkCodeList picks, c = '-' ∨ ∃ i : Fin 32, c = pick i := by
  intro c h
  simp only [mkCodeList, codeSegment, List.mem_append, List.mem_cons,
    List.not_mem_nil, or_false] at h
  rcases h with (h | h | h | h) | h | (h | h | h | h) | h |
    (h | h | h | h) | h | (h | h | h | h) <;>
    first
      | (left; exact h)
      | (right; exact ⟨_, h⟩)

theorem dropWhile_ws_eq_self_of_all {l : List Char}
    (h : ∀ c ∈ l, Char.isWhitespace c = false) :
    l.dropWhile Char.isWhitespace = l := by
  cases l with
  | nil => rfl
  | cons a t => simp [List.dropWhile_cons, h a (by simp)]

theorem rdropWhile_ws_eq_self_of_all {l : List Char}
    (h : ∀ c ∈ l, Char.isWhitespace c = false) :
    List.rdropWhile Char.isWhitespace l = l := by
  rw [List.rdropWhile,
    dropWhile_ws_eq_self_of_all (fun c hc => h c (List.mem_reverse.mp hc))]
  exact List.reverse_reverse l

theorem pyStrip_eq_self_of_all {l : List Char}
    (h : ∀ c ∈ l, Char.isWhitespace c = false) : pyStrip l = l := by
  rw [pyStrip, dropWhile_ws_eq_self_of_all h, rdropWhile_ws_eq_self_of_all h]

theorem pyUpper_eq_self_of_all {l : List Char}
    (h : ∀ c ∈ l, c.toUpper = c) : pyUpper l = l := by
  rw [pyUpper, List.map_congr_left h]
  simp

theorem normalize_mkCode (picks : Fin 4 → Fin 4 → Fin 32) :
    normalize (mkCode picks) = mkCode picks := by
  have hws : ∀ c ∈ mkCodeList picks, Char.isWhitespace c = false := by
    intro c hc
    rcases mkCodeList_chars picks c hc with h | ⟨i, h⟩
    · subst h; decide
    · subst h; exact pick_not_whitespace i
  have hup : ∀ c ∈ mkCodeList picks, c.toUpper = c := by
    intro c hc
    rcases mkCodeList_chars picks c hc with h | ⟨i, h⟩
    · subst h; decide
    · subst h; exact pick_toUpper i
  simp only [normalize, mkCode, toList_asString]
  rw [pyStrip_eq_self_of_all hws, pyUpper_eq_self_of_all hup]

theorem length_mkCode (picks : Fin 4 → Fin 4 → Fin 32) :
    (mkCode picks).length = 19 := by
  simp [mkCode, mkCodeList, codeSegment, List.asString, String.length]

theorem preset_lookup_mkCode (picks : Fin 4 → Fin 4 → Fin 32) :
    lookupStr PRESET_CODES (mkCode picks) = none := by
  have hlen := length_mkCode picks
  have hne : ∀ k : String, k.length ≠ 19 → ¬(k = mkCode picks) := by
    intro k hk h
    rw [h] at hk
    exact hk hlen
  simp only [PRESET_CODES, lookupStr]
  rw [if_neg (hne _ (by decide)), if_neg (hne _ (by decide)),
    if_neg (hne _ (by decide)), if_neg (hne _ (by decide)),
    if_neg (hne _ (by decide)), if_neg (hne _ (by decide))]

/-! ### Reduction lemmas for `verify_code` and `redeem_code` -/

theorem verify_of_preset_fresh {st : ManagerState} {input : String}
    {pkg : String} (now : Int)
    (hp : lookupStr PRESET_CODES (normalize input) = some pkg)
    (hnot : normalize input ∉ st.license.used_preset_codes) :
    verify_code st input now = (true, "兑换码有效", some pkg) := by
  simp [verify_code, hp, hnot]

theorem verify_of_preset_used {st : ManagerState} {input : String}
    {pkg : String} (now : Int)
    (hp : lookupStr PRESET_CODES (normalize input) = some pkg)
    (hmem : normalize input ∈ st.license.used_preset_codes) :
    verify_code st input now = (false, "该兑换码已在本机使用", none) := by
  simp [verify_code, hp, hmem]

theorem verify_of_used {st : ManagerState} {input : String} {info : CodeInfo}
    (now : Int) (hp : lookupStr PRESET_CODES (normalize input) = none)
    (hc : lookupStr st.codes (normalize input) = some info)
    (hu : info.is_used = true) :
    verify_code st input now = (false, "该兑换码已被使用", none) := by
  simp [verify_code, hp, hc, hu]

theorem verify_of_expired {st : ManagerState} {input : String}
    {info : CodeInfo} {e : Int} (now : Int)
    (hp : lookupStr PRESET_CODES (normalize input) = none)
    (hc : lookupStr st.codes (normalize input) = some info)
    (hu : info.is_used = false) (he : info.expires_at = some e)
    (hlt : e < now) :
    verify_code st input now = (false, "该兑换码已过期", none) := by
  simp [verify_code, hp, hc, hu, he, hlt]

theorem verify_of_fresh {st : ManagerState} {input : String} {info : CodeInfo}
    (now : Int) (hp : lookupStr PRESET_CODES (normalize input) = none)
    (hc : lookupStr st.codes (normalize input) = some info)
    (hu : info.is_used = false)
    (hok : ∀ e, info.expires_at = some e → now ≤ e) :
    verify_code st input now = (true, "兑换码有效", some info.package_type) := by
  simp only [verify_code, hp, hc, hu, Bool.false_eq_true, if_false]
  cases he : info.expires_at with
  | none => rfl
  | some e =>
    have : ¬(now > e) := not_lt.mpr (hok e he)
    simp [this]

theorem redeem_of_verify_false {st : ManagerState} {input : String}
    {now : Int} (h : (verify_code st (normalize input) now).1 = false) :
    redeem_code st input now =
      ((false, (verify_code st (normalize input) now).2.1), st) := by
  simp [redeem_code, h]

theorem verify_eq_verify_normalize (st : ManagerState) (input : String)
    (now : Int) :
    verify_code st input now = verify_code st (normalize input) now := by
  simp only [verify_code, normalize_idem]

theorem redeem_of_valid_nonpreset {st : ManagerState} {input : String}
    {now : Int} {m : String} {pkg : Option String}
    (hp : lookupStr PRESET_CODES (normalize input) = none)
    (hv : verify_code st (normalize input) now = (true, m, pkg)) :
    redeem_code st input now =
      ((true, "激活成功！已解锁：" ++ (packageGet pkg).name ++ " (" ++
          (packageGet pkg).description ++ ")"),
       { codes := markUsed st.codes (normalize input) now,
         license := { unlocked_features := (packageGet pkg).features,
                      activated_at := some now,
                      package_type := pkg,
                      used_preset_codes := st.license.used_preset_codes } }) := by
  simp [redeem_code, hv, hp]

theorem redeem_of_valid_preset {st : ManagerState} {input : String}
    {now : Int} {m : String} {pk : String} {pkg : Option String}
    (hp : lookupStr PRESET_CODES (normalize input) = some pk)
    (hv : verify_code st (normalize input) now = (true, m, pkg)) :
    redeem_code st input now =
      ((true, "激活成功！已解锁：" ++ (packageGet pkg).name ++ " (" ++
          (packageGet pkg).description ++ ")"),
       { codes := st.codes,
         license := { unlocked_features := (packageGet pkg).features,
                      activated_at := some now,
                      package_type := pkg,
                      used_preset_codes :=
                        (saveUsedPresetCode st
                          (normalize input)).license.used_preset_codes } }) := by
  have hcodes : (saveUsedPresetCode st (normalize input)).codes = st.codes := by
    rw [saveUsedPresetCode]
    by_cases h : normalize input ∈ st.license.used_preset_codes
    · rw [if_pos h]
    · rw [if_neg h]
  simp [redeem_code, hv, hp, hcodes]

/-! ### Monotonicity of the used flags under manager operations -/

theorem verify_true_nonpreset_lookup {st : ManagerState} {input : String}
    {now : Int} (hp : lookupStr PRESET_CODES (normalize input) = none)
    (h : (verify_code st (normalize input) now).1 = true) :
    ∃ info, lookupStr st.codes (normalize input) = some info := by
  simp only [verify_code, normalize_idem, hp] at h
  cases hc : lookupStr st.codes (normalize input) with
  | none =>
    rw [hc] at h
    simp at h
  | some info => exact ⟨info, rfl⟩

theorem markUsed_preserves_used {m : List (String × CodeInfo)}
    {k c : String} {t : Int}
    (h : (lookupStr m c).map CodeInfo.is_used = some true) :
    (lookupStr (markUsed m k t) c).map CodeInfo.is_used = some true := by
  rw [lookupStr_markUsed]
  by_cases hck : c = k
  · rw [if_pos hck]
    cases hl : lookupStr m c with
    | none =>
      rw [hl] at h
      simp at h
    | some i => simp
  · rw [if_neg hck]
    exact h

theorem redeem_preserves_used {st : ManagerState} {input : String} {now : Int}
    {c : String} (h : (lookupStr st.codes c).map CodeInfo.is_used = some true) :
    (lookupStr (redeem_code st input now).2.codes c).map CodeInfo.is_used
      = some true := by
  rcases hveq : verify_code st (normalize input) now with ⟨b, m, pk⟩
  cases b
  · rw [redeem_of_verify_false (by rw [hveq])]
    exact h
  · cases hp : lookupStr PRESET_CODES (normalize input) with
    | some pk2 =>
      rw [redeem_of_valid_preset hp hveq]
      exact h
    | none =>
      rw [redeem_of_valid_nonpreset hp hveq]
      exact markUsed_preserves_used h

theorem generate_preserves_lookup_ne {st : ManagerState} {pkg : String}
    {d : Option Int} {now : Int} {ps : Fin 4 → Fin 4 → Fin 32} {c : String}
    (h : mkCode ps ≠ c) :
    lookupStr (generate_code st pkg d now ps).2.codes c = lookupStr st.codes c := by
  simp only [generate_code]
  exact lookupStr_dictInsert_ne _ _ _ _ (Ne.symm h)

theorem applyOp_preserves_used {st : ManagerState} {c : String} (op : Op)
    (hop : opKeeps c op = true)
    (h : (lookupStr st.codes c).map CodeInfo.is_used = some true) :
    (lookupStr (applyOp st op).codes c).map CodeInfo.is_used = some true := by
  cases op with
  | genOp pkg d now ps =>
    simp only [opKeeps, Bool.not_eq_eq_eq_not, Bool.not_true,
      beq_eq_false_iff_ne, ne_eq] at hop
    rw [applyOp, generate_preserves_lookup_ne hop]
    exact h
  | redeemOp input now => exact redeem_preserves_used h
  | resetOp => exact h
  | deleteOp code => simp [opKeeps] at hop

theorem runOps_preserves_used {c : String} :
    ∀ (ops : List Op) (st : ManagerState), ops.all (opKeeps c) = true →
      (lookupStr st.codes c).map CodeInfo.is_used = some true →
      (lookupStr (runOps st ops).codes c).map CodeInfo.is_used = some true := by
  intro ops
  induction ops with
  | nil =>
    intro st _ h
    exact h
  | cons op rest ih =>
    intro st hall h
    simp only [List.all_cons, Bool.and_eq_true] at hall
    exact ih (applyOp st op) hall.2 (applyOp_preserves_used op hall.1 h)

theorem redeem_fails_of_used {st : ManagerState} {c : String} (now : Int)
    (hp : lookupStr PRESET_CODES (normalize c) = none)
    (h : (lookupStr st.codes (normalize c)).map CodeInfo.is_used = some true) :
    (redeem_code st c now).1.1 = false := by
  cases hl : lookupStr st.codes (normalize c) with
  | none =>
    rw [hl] at h
    simp at h
  | some info =>
    rw [hl] at h
    have hu : info.is_used = true := by simpa using h
    have hv : verify_code st (normalize c) now =
        (false, "该兑换码已被使用", none) :=
      verify_of_used now (by rw [normalize_idem]; exact hp)
        (by rw [normalize_idem]; exact hl) hu
    rw [redeem_of_verify_false (by rw [hv])]

theorem redeem_success_sets_used {st : ManagerState} {c : String} {now : Int}
    (hp : lookupStr PRESET_CODES (normalize c) = none)
    (hs : (redeem_code st c now).1.1 = true) :
    (lookupStr (redeem_code st c now).2.codes (normalize c)).map
      CodeInfo.is_used = some true := by
  rcases hveq : verify_code st (normalize c) now with ⟨b, m, pkg⟩
  cases b
  · rw [redeem_of_verify_false (by rw [hveq])] at hs
    simp at hs
  · obtain ⟨info, hinfo⟩ := verify_true_nonpreset_lookup hp (by rw [hveq])
    rw [redeem_of_valid_nonpreset hp hveq]
    rw [lookupStr_markUsed, if_pos rfl, hinfo]
    simp

theorem saveUsed_mem (st : ManagerState) (code : String) :
    code ∈ (saveUsedPresetCode st code).license.used_preset_codes := by
  rw [saveUsedPresetCode]
  by_cases h : code ∈ st.license.used_preset_codes
  · rw [if_pos h]
    exact h
  · rw [if_neg h]
    simp

theorem saveUsed_mem_mono {st : ManagerState} {code c : String}
    (h : c ∈ st.license.used_preset_codes) :
    c ∈ (saveUsedPresetCode st code).license.used_preset_codes := by
  rw [saveUsedPresetCode]
  by_cases hm : code ∈ st.license.used_preset_codes
  · rw [if_pos hm]
    exact h
  · rw [if_neg hm]
    simp only [List.mem_append]
    exact Or.inl h

theorem redeem_preserves_presetmem {st : ManagerState} {input : String}
    {now : Int} {c : String} (h : c ∈ st.license.used_preset_codes) :
    c ∈ (redeem_code st input now).2.license.used_preset_codes := by
  rcases hveq : verify_code st (normalize input) now with ⟨b, m, pk⟩
  cases b
  · rw [redeem_of_verify_false (by rw [hveq])]
    exact h
  · cases hp : lookupStr PRESET_CODES (normalize input) with
    | none =>
      rw [redeem_of_valid_nonpreset hp hveq]
      exact h
    | some pk2 =>
      rw [redeem_of_valid_preset hp hveq]
      exact saveUsed_mem_mono h

theorem applyOp_preserves_presetmem {st : ManagerState} {c : String} (op : Op)
    (hop : opKeepsPreset op = true) (h : c ∈ st.license.used_preset_codes) :
    c ∈ (applyOp st op).license.used_preset_codes := by
  cases op with
  | genOp pkg d now ps => exact h
  | redeemOp input now => exact redeem_preserves_presetmem h
  | resetOp => simp [opKeepsPreset] at hop
  | deleteOp code => simp [opKeepsPreset] at hop

theorem runOps_preserves_presetmem {c : String} :
    ∀ (ops : List Op) (st : ManagerState), ops.all opKeepsPreset = true →
      c ∈ st.license.used_preset_codes →
      c ∈ (runOps st ops).license.used_preset_codes := by
  intro ops
  induction ops with
  | nil =>
    intro st _ h
    exact h
  | cons op rest ih =>
    intro st hall h
    simp only [List.all_cons, Bool.and_eq_true] at hall
    exact ih (applyOp st op) hall.2 (applyOp_preserves_presetmem op hall.1 h)

theorem redeem_success_adds_presetmem {st : ManagerState} {c : String}
    {now : Int} {pk : String}
    (hp : lookupStr PRESET_CODES (normalize c) = some pk)
    (hs : (redeem_code st c now).1.1 = true) :
    normalize c ∈ (redeem_code st c now).2.license.used_preset_codes := by
  rcases hveq : verify_code st (normalize c) now with ⟨b, m, pkg⟩
  cases b
  · rw [redeem_of_verify_false (by rw [hveq])] at hs
    simp at hs
  · rw [redeem_of_valid_preset hp hveq]
    exact saveUsed_mem st (normalize c)

theorem redeem_fails_of_presetmem {st : ManagerState} {c : String}
    (now : Int) {pk : String}
    (hp : lookupStr PRESET_CODES (normalize c) = some pk)
    (hmem : normalize c ∈ st.license.used_preset_codes) :
    (redeem_code st c now).1.1 = false := by
  have hv : verify_code st (normalize c) now =
      (false, "该兑换码已在本机使用", none) :=
    verify_of_preset_used now (by rw [normalize_idem]; exact hp)
      (by rw [normalize_idem]; exact hmem)
  rw [redeem_of_verify_false (by rw [hv])]

theorem redeem_valid_features {st : ManagerState} {input : String} {now : Int}
    {m : String} {pkg : Option String}
    (hv : verify_code st (normalize input) now = (true, m, pkg)) :
    (redeem_code st input now).2.license.unlocked_features
      = (packageGet pkg).features := by
  cases hp : lookupStr PRESET_CODES (normalize input) with
  | none => rw [redeem_of_valid_nonpreset hp hv]
  | some pk => rw [redeem_of_valid_preset hp hv]

theorem codeSegment_chars (f : Fin 4 → Fin 32) :
    ∀ c ∈ codeSegment f, c ∈ CODE_CHARS := by
  intro c hc
  simp only [codeSegment, List.mem_cons, List.not_mem_nil, or_false] at hc
  rcases hc with h | h | h | h <;> (subst h; exact pick_mem_CODE_CHARS _)

theorem generate_batch_codes (pkg : String) (d : Option Int) (now : Int) :
    ∀ (count : Nat) (st0 : ManagerState)
      (psb : Nat → Fin 4 → Fin 4 → Fin 32),
      (generate_batch st0 pkg count d now psb).1
        = (List.range count).map (fun i => mkCode (psb i)) := by
  intro count
  induction count with
  | zero =>
    intro st0 psb
    rfl
  | succ n ih =>
    intro st0 psb
    simp only [generate_batch]
    rw [ih _ (fun i => psb (i + 1)), List.range_succ_eq_map]
    simp only [List.map_map, List.map_cons, Function.comp]
    rfl

/-! ### The claims -/

/-- Claim C1: a freshly generated non-preset code that has not been redeemed
and is not yet expired verifies as valid together with the package type it was
generated for; after a successful `redeem_code` on it, `verify_code` returns
invalid with the already-used message. -/
theorem claim_C1_generate_verify_redeem (st : ManagerState) (pkg : String)
    (d : Option Int) (now tv tr tv2 : Int) (ps : Fin 4 → Fin 4 → Fin 32)
    (hv : ∀ e, expiresOf d now = some e → tv ≤ e)
    (hr : ∀ e, expiresOf d now = some e → tr ≤ e) :
    verify_code (generate_code st pkg d now ps).2
        (generate_code st pkg d now ps).1 tv = (true, "兑换码有效", some pkg) ∧
    (redeem_code (generate_code st pkg d now ps).2
        (generate_code st pkg d now ps).1 tr).1.1 = true ∧
    verify_code (redeem_code (generate_code st pkg d now ps).2
        (generate_code st pkg d now ps).1 tr).2
        (generate_code st pkg d now ps).1 tv2
      = (false, "该兑换码已被使用", none) := by
  have hn : normalize (mkCode ps) = mkCode ps := normalize_mkCode ps
  have hpre : lookupStr PRESET_CODES (normalize (mkCode ps)) = none := by
    rw [hn]
    exact preset_lookup_mkCode ps
  have hlook : lookupStr (generate_code st pkg d now ps).2.codes
      (normalize (mkCode ps)) = some
        { package_type := pkg, expires_at := expiresOf d now,
          is_used := false, created_at := now, used_at := none } := by
    rw [hn]
    exact lookupStr_dictInsert_self _ _ _
  have h1 : verify_code (generate_code st pkg d now ps).2 (mkCode ps) tv
      = (true, "兑换码有效", some pkg) :=
    verify_of_fresh tv hpre hlook rfl (fun e he => hv e he)
  have hv2 : verify_code (generate_code st pkg d now ps).2
      (normalize (mkCode ps)) tr = (true, "兑换码有效", some pkg) := by
    rw [hn]
    exact verify_of_fresh tr hpre hlook rfl (fun e he => hr e he)
  have hred := redeem_of_valid_nonpreset hpre hv2
  refine ⟨h1, ?_, ?_⟩
  · rw [show (generate_code st pkg d now ps).1 = mkCode ps from rfl, hred]
  · rw [show (generate_code st pkg d now ps).1 = mkCode ps from rfl, hred]
    have hc2 : lookupStr (markUsed (generate_code st pkg d now ps).2.codes
        (normalize (mkCode ps)) tr) (normalize (mkCode ps)) = some
          { package_type := pkg, expires_at := expiresOf d now,
            is_used := true, created_at := now, used_at := some tr } := by
      rw [lookupStr_markUsed, if_pos rfl, hlook]
      rfl
    exact verify_of_used tv2 hpre hc2 rfl

theorem claim_C1_generate_verify_redeem_witness :
    verify_code (generate_code initialState "pro" none 0 (fun _ _ => 0)).2
        (generate_code initialState "pro" none 0 (fun _ _ => 0)).1 0
      = (true, "兑换码有效", some "pro") ∧
    (redeem_code (generate_code initialState "pro" none 0 (fun _ _ => 0)).2
        (generate_code initialState "pro" none 0 (fun _ _ => 0)).1 1).1.1
      = true ∧
    verify_code (redeem_code (generate_code initialState "pro" none 0
        (fun _ _ => 0)).2
        (generate_code initialState "pro" none 0 (fun _ _ => 0)).1 1).2
        (generate_code initialState "pro" none 0 (fun _ _ => 0)).1 2
      = (false, "该兑换码已被使用", none) :=
  claim_C1_generate_verify_redeem initialState "pro" none 0 0 1 2 (fun _ _ => 0)
    (fun e he => by simp [expiresOf] at he)
    (fun e he => by simp [expiresOf] at he)

/-- Claim C2 (amended): a non-preset code is redeemable at most once over any
operation sequence that contains no `delete_code` and no `generate_code` call
that happens to draw that same code string again (a random collision overwrites
the record with a fresh unused one); a preset code is redeemable at most once
per machine over any operation sequence that contains no `delete_code` and no
`reset_license` (a reset rewrites the license file without the
`used_preset_codes` key, which erases the machine's consumption record). -/
theorem claim_C2_redeem_at_most_once_amended (st : ManagerState) (c : String)
    (now now2 : Int) (ops : List Op) :
    ((lookupStr PRESET_CODES (normalize c) = none) →
      (redeem_code st c now).1.1 = true →
      ops.all (opKeeps (normalize c)) = true →
      (redeem_code (runOps (redeem_code st c now).2 ops) c now2).1.1 = false) ∧
    ((lookupStr PRESET_CODES (normalize c)).isSome = true →
      (redeem_code st c now).1.1 = true →
      ops.all opKeepsPreset = true →
      (redeem_code (runOps (redeem_code st c now).2 ops) c now2).1.1 = false) := by
  constructor
  · intro hp hs hall
    apply redeem_fails_of_used now2 hp
    exact runOps_preserves_used ops _ hall (redeem_success_sets_used hp hs)
  · intro hp hs hall
    obtain ⟨pk, hpk⟩ := Option.isSome_iff_exists.mp hp
    apply redeem_fails_of_presetmem now2 hpk
    exact runOps_preserves_presetmem ops _ hall
      (redeem_success_adds_presetmem hpk hs)

theorem claim_C2_redeem_at_most_once_amended_witness :
    (redeem_code (runOps (redeem_code
        { codes := [("AAAA-AAAA-AAAA-AAAA",
            { package_type := "pro", expires_at := none, is_used := false,
              created_at := 0, used_at := none })],
          license := { unlocked_features := [], activated_at := none,
                       package_type := none, used_preset_codes := [] } }
        "AAAA-AAAA-AAAA-AAAA" 0).2 [Op.resetOp]) "AAAA-AAAA-AAAA-AAAA" 5).1.1
      = false ∧
    (redeem_code (runOps (redeem_code initialState "PRO-2024-MNOP-3456" 0).2
        []) "PRO-2024-MNOP-3456" 5).1.1 = false :=
  ⟨(claim_C2_redeem_at_most_once_amended
      { codes := [("AAAA-AAAA-AAAA-AAAA",
          { package_type := "pro", expires_at := none, is_used := false,
            created_at := 0, used_at := none })],
        license := { unlocked_features := [], activated_at := none,
                     package_type := none, used_preset_codes := [] } }
      "AAAA-AAAA-AAAA-AAAA" 0 5 [Op.resetOp]).1
      (by decide) (by decide) (by decide),
   (claim_C2_redeem_at_most_once_amended initialState "PRO-2024-MNOP-3456"
      0 5 []).2 (by decide) (by decide) (by decide)⟩

/-- Claim C2 counterexample, refuting the claim as stated: both halves fail.
A non-preset code is redeemed successfully twice in a delete-free sequence
when `generate_code` happens to draw the same sixteen characters again
(resetting `is_used` to false), and a preset code is redeemed successfully
twice on one machine in a delete-free sequence containing `reset_license`. -/
theorem claim_C2_counterexample :
    lookupStr PRESET_CODES "AAAA-AAAA-AAAA-AAAA" = none ∧
    (redeem_code (generate_code initialState "pro" none 0 (fun _ _ => 0)).2
      "AAAA-AAAA-AAAA-AAAA" 1).1.1 = true ∧
    (redeem_code (generate_code (redeem_code (generate_code initialState "pro"
        none 0 (fun _ _ => 0)).2 "AAAA-AAAA-AAAA-AAAA" 1).2 "pro" none 2
        (fun _ _ => 0)).2 "AAAA-AAAA-AAAA-AAAA" 3).1.1 = true ∧
    (redeem_code initialState "PRO-2024-MNOP-3456" 0).1.1 = true ∧
    (redeem_code (reset_license
        (redeem_code initialState "PRO-2024-MNOP-3456" 0).2)
      "PRO-2024-MNOP-3456" 1).1.1 = true := by
  refine ⟨by decide, by decide, by decide, by decide, by decide⟩

/-- Claim C3: the first `redeem_code` of a preset code on a machine succeeds,
overwrites the unlocked feature set with the set mapped to the preset code's
package type, and leaves the shared generated-code store untouched; it records
consumption in the machine-local license state, and every `redeem_code` of the
code issued while the machine's consumed list holds it fails with the
already-used-on-this-machine message. -/
theorem claim_C3_preset_redeem (st : ManagerState) (input : String)
    (pkg : String) (now : Int)
    (hp : lookupStr PRESET_CODES (normalize input) = some pkg)
    (hnot : normalize input ∉ st.license.used_preset_codes) :
    (redeem_code st input now).1.1 = true ∧
    (redeem_code st input now).2.license.unlocked_features
      = (packageGet (some pkg)).features ∧
    (redeem_code st input now).2.codes = st.codes ∧
    normalize input ∈ (redeem_code st input now).2.license.used_preset_codes ∧
    (∀ (st2 : ManagerState) (now2 : Int),
      normalize input ∈ st2.license.used_preset_codes →
      (redeem_code st2 input now2).1 = (false, "该兑换码已在本机使用")) := by
  have hv0 : verify_code st input now = (true, "兑换码有效", some pkg) :=
    verify_of_preset_fresh now hp hnot
  have hv : verify_code st (normalize input) now
      = (true, "兑换码有效", some pkg) := by
    rw [← verify_eq_verify_normalize]
    exact hv0
  have hred := redeem_of_valid_preset hp hv
  refine ⟨?_, ?_, ?_, ?_, ?_⟩
  · rw [hred]
  · rw [hred]
  · rw [hred]
  · rw [hred]
    exact saveUsed_mem st (normalize input)
  · intro st2 now2 hmem
    have hv2 : verify_code st2 (normalize input) now2
        = (false, "该兑换码已在本机使用", none) :=
      verify_of_preset_used now2 (by rw [normalize_idem]; exact hp)
        (by rw [normalize_idem]; exact hmem)
    rw [redeem_of_verify_false (by rw [hv2]), hv2]

theorem claim_C3_preset_redeem_witness :
    (redeem_code initialState "PRO-2024-MNOP-3456" 0).1.1 = true ∧
    (redeem_code initialState "PRO-2024-MNOP-3456" 0).2.license.unlocked_features
      = (packageGet (some "pro")).features ∧
    (redeem_code initialState "PRO-2024-MNOP-3456" 0).2.codes
      = initialState.codes ∧
    normalize "PRO-2024-MNOP-3456"
      ∈ (redeem_code initialState
          "PRO-2024-MNOP-3456" 0).2.license.used_preset_codes ∧
    (∀ (st2 : ManagerState) (now2 : Int),
      normalize "PRO-2024-MNOP-3456" ∈ st2.license.used_preset_codes →
      (redeem_code st2 "PRO-2024-MNOP-3456" now2).1
        = (false, "该兑换码已在本机使用")) :=
  claim_C3_preset_redeem initialState "PRO-2024-MNOP-3456" "pro" 0
    (by decide) (by decide)

/-- Claim C4: a stored generated code whose `expires_at` is strictly in the
past verifies as invalid with the expired message, even with `is_used` still
false. -/
theorem claim_C4_expired_invalid (st : ManagerState) (input : String)
    (now : Int) (info : CodeInfo) (e : Int)
    (hp : lookupStr PRESET_CODES (normalize input) = none)
    (hc : lookupStr st.codes (normalize input) = some info)
    (hu : info.is_used = false) (he : info.expires_at = some e)
    (hlt : e < now) :
    verify_code st input now = (false, "该兑换码已过期", none) :=
  verify_of_expired now hp hc hu he hlt

theorem claim_C4_expired_invalid_witness :
    verify_code
      { codes := [("AAAA-AAAA-AAAA-AAAA",
          { package_type := "pro", expires_at := some 5, is_used := false,
            created_at := 0, used_at := none })],
        license := { unlocked_features := [], activated_at := none,
                     package_type := none, used_preset_codes := [] } }
      "AAAA-AAAA-AAAA-AAAA" 6 = (false, "该兑换码已过期", none) :=
  claim_C4_expired_invalid
    { codes := [("AAAA-AAAA-AAAA-AAAA",
        { package_type := "pro", expires_at := some 5, is_used := false,
          created_at := 0, used_at := none })],
      license := { unlocked_features := [], activated_at := none,
                   package_type := none, used_preset_codes := [] } }
    "AAAA-AAAA-AAAA-AAAA" 6
    { package_type := "pro", expires_at := some 5, is_used := false,
      created_at := 0, used_at := none }
    5 (by decide) (by decide) rfl rfl (by decide)

/-- Claim C5: redeeming a valid pro code and then a valid basic code leaves
`unlocked_features` equal to exactly basic's feature set: the redeem overwrites
the set instead of taking a union. -/
theorem claim_C5_overwrite_features (st : ManagerState) (a b : String)
    (t1 t2 : Int) (m1 m2 : String)
    (ha : verify_code st a t1 = (true, m1, some "pro"))
    (hb : verify_code (redeem_code st a t1).2 b t2 = (true, m2, some "basic")) :
    (redeem_code st a t1).2.license.unlocked_features
      = ["prompt", "jump", "package"] ∧
    (redeem_code (redeem_code st a t1).2 b t2).2.license.unlocked_features
      = ["prompt", "jump"] := by
  have ha2 : verify_code st (normalize a) t1 = (true, m1, some "pro") := by
    rw [← verify_eq_verify_normalize]
    exact ha
  have hb2 : verify_code (redeem_code st a t1).2 (normalize b) t2
      = (true, m2, some "basic") := by
    rw [← verify_eq_verify_normalize]
    exact hb
  constructor
  · rw [redeem_valid_features ha2]
    decide
  · rw [redeem_valid_features hb2]
    decide

theorem claim_C5_overwrite_features_witness :
    (redeem_code
      { codes := [("AAAA-AAAA-AAAA-AAAA",
          { package_type := "pro", expires_at := none, is_used := false,
            created_at := 0, used_at := none }),
          ("BBBB-BBBB-BBBB-BBBB",
          { package_type := "basic", expires_at := none, is_used := false,
            created_at := 0, used_at := none })],
        license := { unlocked_features := [], activated_at := none,
                     package_type := none, used_preset_codes := [] } }
      "AAAA-AAAA-AAAA-AAAA" 1).2.license.unlocked_features
      = ["prompt", "jump", "package"] ∧
    (redeem_code (redeem_code
      { codes := [("AAAA-AAAA-AAAA-AAAA",
          { package_type := "pro", expires_at := none, is_used := false,
            created_at := 0, used_at := none }),
          ("BBBB-BBBB-BBBB-BBBB",
          { package_type := "basic", expires_at := none, is_used := false,
            created_at := 0, used_at := none })],
        license := { unlocked_features := [], activated_at := none,
                     package_type := none, used_preset_codes := [] } }
      "AAAA-AAAA-AAAA-AAAA" 1).2
      "BBBB-BBBB-BBBB-BBBB" 2).2.license.unlocked_features
      = ["prompt", "jump"] :=
  claim_C5_overwrite_features
    { codes := [("AAAA-AAAA-AAAA-AAAA",
        { package_type := "pro", expires_at := none, is_used := false,
          created_at := 0, used_at := none }),
        ("BBBB-BBBB-BBBB-BBBB",
        { package_type := "basic", expires_at := none, is_used := false,
          created_at := 0, used_at := none })],
      license := { unlocked_features := [], activated_at := none,
                   package_type := none, used_preset_codes := [] } }
    "AAAA-AAAA-AAAA-AAAA" "BBBB-BBBB-BBBB-BBBB" 1 2 "兑换码有效" "兑换码有效"
    (by decide) (by decide)

/-- Claim C6 (amended): `reset_license` clears `unlocked_features` and
`activated_at` and leaves the generated-code records unchanged, but it also
clears the machine's consumed-preset-code list: the rewritten license file no
longer holds the `used_preset_codes` key, so the list reads back empty. -/
theorem claim_C6_reset_license_amended (st : ManagerState) :
    (reset_license st).codes = st.codes ∧
    (reset_license st).license.unlocked_features = [] ∧
    (reset_license st).license.activated_at = none ∧
    (reset_license st).license.used_preset_codes = [] :=
  ⟨rfl, rfl, rfl, rfl⟩

/-- Claim C6 counterexample: on a state whose consumed-preset-code list is
nonempty, `reset_license` does not leave that list unchanged - it empties it. -/
theorem claim_C6_counterexample :
    (reset_license
      { codes := [],
        license := { unlocked_features := ["prompt", "jump"],
                     activated_at := some 5, package_type := some "basic",
                     used_preset_codes :=
                       ["PRO-2024-MNOP-3456"] } }).license.used_preset_codes
      ≠ ({ codes := [],
           license := { unlocked_features := ["prompt", "jump"],
                        activated_at := some 5, package_type := some "basic",
                        used_preset_codes := ["PRO-2024-MNOP-3456"] } } :
          ManagerState).license.used_preset_codes := by
  decide

/-- Claim C7: whenever `verify_code` rejects an input with message `m`,
`redeem_code` on the same input fails with exactly `m` and returns the state
unchanged. -/
theorem claim_C7_redeem_propagates_verify_failure (st : ManagerState)
    (input : String) (now : Int)
    (h : (verify_code st input now).1 = false) :
    redeem_code st input now
      = ((false, (verify_code st input now).2.1), st) := by
  have h2 : (verify_code st (normalize input) now).1 = false := by
    rw [← verify_eq_verify_normalize]
    exact h
  rw [redeem_of_verify_false h2, verify_eq_verify_normalize st input now]

theorem claim_C7_redeem_propagates_verify_failure_witness :
    redeem_code initialState "NOPE" 0
      = ((false, (verify_code initialState "NOPE" 0).2.1), initialState) :=
  claim_C7_redeem_propagates_verify_failure initialState "NOPE" 0 (by decide)

/-- Claim C8 (amended): every code produced by `generate_code` is four
dash-separated groups of four characters (19 characters in all) over the fixed
alphabet, which contains none of the ambiguous characters I, O, 0, 1; the
produced code is recorded in the store with `is_used` false, `created_at` the
current time, and `expires_at` equal to now plus the duration when a nonzero
duration is given - a zero duration, like an absent one, yields a null
`expires_at` (Python's truthiness test); `generate_batch` returns the codes of
`count` successive `generate_code` calls. -/
theorem claim_C8_generate_code_amended (st : ManagerState) (pkg : String)
    (d : Option Int) (now : Int) (ps : Fin 4 → Fin 4 → Fin 32) :
    (∃ g1 g2 g3 g4 : List Char,
      (generate_code st pkg d now ps).1
          = (g1 ++ '-' :: (g2 ++ '-' :: (g3 ++ '-' :: g4))).asString ∧
      g1.length = 4 ∧ g2.length = 4 ∧ g3.length = 4 ∧ g4.length = 4 ∧
      (∀ c ∈ g1, c ∈ CODE_CHARS) ∧ (∀ c ∈ g2, c ∈ CODE_CHARS) ∧
      (∀ c ∈ g3, c ∈ CODE_CHARS) ∧ (∀ c ∈ g4, c ∈ CODE_CHARS)) ∧
    ('I' ∉ CODE_CHARS ∧ 'O' ∉ CODE_CHARS ∧
      '0' ∉ CODE_CHARS ∧ '1' ∉ CODE_CHARS) ∧
    (generate_code st pkg d now ps).1.length = 19 ∧
    lookupStr (generate_code st pkg d now ps).2.codes
        (generate_code st pkg d now ps).1
      = some { package_type := pkg, expires_at := expiresOf d now,
               is_used := false, created_at := now, used_at := none } ∧
    (∀ k : Int, d = some k → k ≠ 0 → expiresOf d now = some (now + k)) ∧
    (d = none → expiresOf d now = none) ∧
    (d = some 0 → expiresOf d now = none) ∧
    (∀ (count : Nat) (st0 : ManagerState)
        (psb : Nat → Fin 4 → Fin 4 → Fin 32),
      (generate_batch st0 pkg count d now psb).1
        = (List.range count).map
            (fun i => (generate_code st0 pkg d now (psb i)).1)) := by
  refine ⟨⟨codeSegment (ps 0), codeSegment (ps 1), codeSegment (ps 2),
      codeSegment (ps 3), rfl, rfl, rfl, rfl, rfl,
      codeSegment_chars _, codeSegment_chars _, codeSegment_chars _,
      codeSegment_chars _⟩,
    by decide, length_mkCode ps, lookupStr_dictInsert_self _ _ _,
    ?_, ?_, ?_, ?_⟩
  · intro k hk hk0
    subst hk
    simp [expiresOf, hk0]
  · intro h
    subst h
    rfl
  · intro h
    subst h
    simp [expiresOf]
  · intro count st0 psb
    exact generate_batch_codes pkg d now count st0 psb

theorem claim_C8_generate_code_amended_witness :
    lookupStr (generate_code initialState "pro" (some 3) 10
        (fun _ _ => 0)).2.codes
        (generate_code initialState "pro" (some 3) 10 (fun _ _ => 0)).1
      = some { package_type := "pro", expires_at := expiresOf (some 3) 10,
               is_used := false, created_at := 10, used_at := none } ∧
    expiresOf (some 3) 10 = some 13 ∧
    (generate_code initialState "pro" (some 3) 10 (fun _ _ => 0)).1.length
      = 19 := by
  obtain ⟨hseg, hexcl, hlen, hlook, hsome, hnone, hzero, hbatch⟩ :=
    claim_C8_generate_code_amended initialState "pro" (some 3) 10
      (fun _ _ => 0)
  refine ⟨hlook, ?_, hlen⟩
  have h13 := hsome 3 rfl (by decide)
  rw [h13]
  norm_num

/-- Claim C8 counterexample: with an expiry duration of exactly 0, the stored
`expires_at` is null rather than `now + 0` - refuting "expires_at equals now
plus the expiry duration when one is given". -/
theorem claim_C8_counterexample :
    (lookupStr (generate_code initialState "pro" (some 0) 7
        (fun _ _ => 0)).2.codes
        (generate_code initialState "pro" (some 0) 7
          (fun _ _ => 0)).1).map CodeInfo.expires_at = some none ∧
    some (none : Option Int) ≠ some (some ((7 : Int) + 0)) := by
  refine ⟨by decide, by decide⟩

/-- Claim C9: `verify_code` is invariant under the trim-and-uppercase input
normalization, and the preset table takes priority over the mutable code
store: a preset code not yet consumed on this machine verifies as valid with
its preset package type in every state, whatever the mutable store holds
(`verify_code` performs no writes: it is a pure function of the state). -/
theorem claim_C9_verify_normalization (st : ManagerState) (input : String)
    (now : Int) :
    verify_code st input now = verify_code st (normalize input) now ∧
    (∀ pkg : String, lookupStr PRESET_CODES (normalize input) = some pkg →
      normalize input ∉ st.license.used_preset_codes →
      verify_code st input now = (true, "兑换码有效", some pkg)) := by
  refine ⟨verify_eq_verify_normalize st input now, ?_⟩
  intro pkg hp hnot
  exact verify_of_preset_fresh now hp hnot

theorem claim_C9_verify_normalization_witness :
    verify_code initialState " pro-2024-mnop-3456 " 0
      = verify_code initialState (normalize " pro-2024-mnop-3456 ") 0 ∧
    verify_code initialState " pro-2024-mnop-3456 " 0
      = (true, "兑换码有效", some "pro") :=
  ⟨(claim_C9_verify_normalization initialState " pro-2024-mnop-3456 " 0).1,
   (claim_C9_verify_normalization initialState " pro-2024-mnop-3456 " 0).2
     "pro" (by decide) (by decide)⟩

/-- Claim C10: `generate_code` with an expiry duration of exactly 0 days
stores a null `expires_at` - a code that never expires - because the source
tests the duration for truthiness rather than presence. -/
theorem claim_C10_zero_days_never_expires (st : ManagerState) (pkg : String)
    (now : Int) (ps : Fin 4 → Fin 4 → Fin 32) :
    (lookupStr (generate_code st pkg (some 0) now ps).2.codes
        (generate_code st pkg (some 0) now ps).1).map CodeInfo.expires_at
      = some none := by
  have h := lookupStr_dictInsert_self st.codes (mkCode ps)
    { package_type := pkg, expires_at := expiresOf (some 0) now,
      is_used := false, created_at := now, used_at := none }
  rw [show lookupStr (generate_code st pkg (some 0) now ps).2.codes
      (generate_code st pkg (some 0) now ps).1
      = some { package_type := pkg, expires_at := expiresOf (some 0) now,
               is_used := false, created_at := now, used_at := none } from h]
  simp [expiresOf]

end CodeSystem
